import Mathlib

/-!
Shallow embedding of the FBI crime-data fetch pipeline
(`backend/src/circuit_breaker.py`, `key_pool.py`, `http_client.py`,
`job_queue.py`, `crime_fetcher.py`, `models.py`) together with proofs of the
behavioural properties claimed by the specification.

Time is modelled as a natural number of seconds (`datetime.utcnow()` becomes
an explicit `now : Nat` argument).  Python dictionaries keyed by strings
become insertion-ordered association lists, mirroring CPython's dict
iteration order.  Fallible operations (an uncaught `IndexError`, an
exception escaping a `try`) are modelled with `Option`.
-/

set_option autoImplicit false

/-! ## Circuit breaker (`circuit_breaker.py`) -/

/-- `CircuitState` from `circuit_breaker.py`.  `opened` stands for the
source's `OPEN` (a Lean keyword). -/
inductive CircuitState where
  | closed
  | opened
  | halfOpen
deriving DecidableEq, Repr

/-- The `CircuitStatus` dataclass, with its field defaults. -/
structure CircuitStatus where
  state : CircuitState := .closed
  failures : Nat := 0
  last_failure : Option Nat := none
  cooldown_until : Option Nat := none
  success_count : Nat := 0
deriving DecidableEq, Repr

/-- `CircuitStatus.is_available` (a pure read; `datetime.utcnow()` is the
explicit `now`).  A `datetime` is always truthy in Python, so
`if self.cooldown_until` is a `None` check. -/
def CircuitStatus.is_available (c : CircuitStatus) (now : Nat) : Bool :=
  match c.state with
  | .closed => true
  | .opened =>
    match c.cooldown_until with
    | some cu => decide (cu ≤ now)
    | none => false
  | .halfOpen => true

/-- Lookup in the breaker's `_circuits` dict (association list). -/
def lookupCircuit : List (String × CircuitStatus) → String → Option CircuitStatus
  | [], _ => none
  | (k, c) :: rest, ident => if k = ident then some c else lookupCircuit rest ident

/-- Store a circuit under a key, replacing an existing binding
(dict assignment). -/
def setCircuit : List (String × CircuitStatus) → String → CircuitStatus → List (String × CircuitStatus)
  | [], ident, c => [(ident, c)]
  | (k, c0) :: rest, ident, c =>
    if k = ident then (ident, c) :: rest else (k, c0) :: setCircuit rest ident c

/-- The `CircuitBreaker` class: its three configuration parameters (with the
constructor defaults) and the `_circuits` map. -/
structure CircuitBreaker where
  failure_threshold : Nat := 3
  cooldown_seconds : Nat := 3600
  half_open_successes : Nat := 2
  circuits : List (String × CircuitStatus) := []
deriving DecidableEq, Repr

/-- The circuit stored for a key, or a fresh default `CircuitStatus` when the
key is absent (absent keys behave as CLOSED with zero failures). -/
def getCircuit (b : CircuitBreaker) (ident : String) : CircuitStatus :=
  (lookupCircuit b.circuits ident).getD {}

/-- The body of `CircuitBreaker.record_failure` acting on one circuit:
increment `failures`, stamp `last_failure`, then the threshold check followed
by the half-open check, exactly in the source's order.  Returns the updated
circuit and the "tripped" flag. -/
def CircuitStatus.afterFailure (c : CircuitStatus) (threshold cooldown now : Nat) :
    CircuitStatus × Bool :=
  let c1 : CircuitStatus := { c with failures := c.failures + 1, last_failure := some now }
  if threshold ≤ c1.failures ∧ c1.state ≠ .opened then
    ({ c1 with state := .opened, cooldown_until := some (now + cooldown) }, true)
  else if c1.state = .halfOpen then
    ({ c1 with state := .opened, cooldown_until := some (now + cooldown) }, true)
  else
    (c1, false)

/-- `CircuitBreaker.record_failure`: creates the circuit on first failure,
mutates it in place. -/
def CircuitBreaker.record_failure (b : CircuitBreaker) (ident : String) (now : Nat) :
    CircuitBreaker × Bool :=
  let c0 := (lookupCircuit b.circuits ident).getD {}
  let r := c0.afterFailure b.failure_threshold b.cooldown_seconds now
  ({ b with circuits := setCircuit b.circuits ident r.1 }, r.2)

/-- `CircuitBreaker.record_success`: no-op for an unknown key; while
HALF_OPEN counts successes and closes at the threshold; while CLOSED resets
the failure counter. -/
def CircuitBreaker.record_success (b : CircuitBreaker) (ident : String) : CircuitBreaker :=
  match lookupCircuit b.circuits ident with
  | none => b
  | some c =>
    if c.state = .halfOpen then
      let c1 : CircuitStatus := { c with success_count := c.success_count + 1 }
      if b.half_open_successes ≤ c1.success_count then
        let c2 : CircuitStatus := { c1 with state := .closed, failures := 0, cooldown_until := none }
        { b with circuits := setCircuit b.circuits ident c2 }
      else
        { b with circuits := setCircuit b.circuits ident c1 }
    else if c.state = .closed then
      let c1 : CircuitStatus := { c with failures := 0 }
      { b with circuits := setCircuit b.circuits ident c1 }
    else
      b

/-- `CircuitBreaker.is_available`: unknown keys are available; an OPEN
circuit whose cooldown has expired lazily flips to HALF_OPEN (resetting the
half-open success counter) and reports available; otherwise the per-circuit
read `CircuitStatus.is_available` decides. -/
def CircuitBreaker.is_available (b : CircuitBreaker) (ident : String) (now : Nat) :
    CircuitBreaker × Bool :=
  match lookupCircuit b.circuits ident with
  | none => (b, true)
  | some c =>
    match c.state, c.cooldown_until with
    | .opened, some cu =>
      if cu ≤ now then
        let c1 : CircuitStatus := { c with state := .halfOpen, success_count := 0 }
        ({ b with circuits := setCircuit b.circuits ident c1 }, true)
      else
        (b, c.is_available now)
    | _, _ => (b, c.is_available now)

theorem lookupCircuit_setCircuit_self (l : List (String × CircuitStatus)) (ident : String)
    (c : CircuitStatus) : lookupCircuit (setCircuit l ident c) ident = some c := by
  induction l with
  | nil => simp [setCircuit, lookupCircuit]
  | cons hd tl ih =>
    obtain ⟨k, c0⟩ := hd
    by_cases hk : k = ident
    · simp [setCircuit, hk, lookupCircuit]
    · simp [setCircuit, hk, lookupCircuit, ih]

theorem getCircuit_record_failure (b : CircuitBreaker) (ident : String) (now : Nat) :
    getCircuit (b.record_failure ident now).1 ident =
      ((getCircuit b ident).afterFailure b.failure_threshold b.cooldown_seconds now).1 := by
  simp [CircuitBreaker.record_failure, getCircuit, lookupCircuit_setCircuit_self]

theorem record_failure_unfold (b : CircuitBreaker) (ident : String) (now : Nat) :
    b.record_failure ident now =
      (let r := (getCircuit b ident).afterFailure b.failure_threshold b.cooldown_seconds now
      ({ b with circuits := setCircuit b.circuits ident r.1 }, r.2)) := rfl

theorem getCircuit_set (b : CircuitBreaker) (l : List (String × CircuitStatus)) (ident : String)
    (c : CircuitStatus) : getCircuit { b with circuits := setCircuit l ident c } ident = c := by
  simp [getCircuit, lookupCircuit_setCircuit_self]

theorem record_success_closed_resets_failures (b : CircuitBreaker) (ident : String)
    (hstate : (getCircuit b ident).state = .closed) :
    (getCircuit (b.record_success ident) ident).failures = 0 := by
  unfold CircuitBreaker.record_success
  cases hl : lookupCircuit b.circuits ident with
  | none => simp [getCircuit, hl]
  | some c =>
    have hc : c.state = .closed := by simpa [getCircuit, hl] using hstate
    simp [hc, getCircuit_set]

theorem record_failure_snd (b : CircuitBreaker) (ident : String) (now : Nat) :
    (b.record_failure ident now).2
      = ((getCircuit b ident).afterFailure b.failure_threshold b.cooldown_seconds now).2 := rfl

theorem record_failure_threshold (b : CircuitBreaker) (ident : String) (now : Nat) :
    (b.record_failure ident now).1.failure_threshold = b.failure_threshold := rfl

theorem record_failure_cooldown (b : CircuitBreaker) (ident : String) (now : Nat) :
    (b.record_failure ident now).1.cooldown_seconds = b.cooldown_seconds := rfl

theorem lookupCircuit_record_failure (b : CircuitBreaker) (ident : String) (now : Nat) :
    lookupCircuit (b.record_failure ident now).1.circuits ident
      = some ((getCircuit b ident).afterFailure b.failure_threshold b.cooldown_seconds now).1 := by
  simp [CircuitBreaker.record_failure, getCircuit, lookupCircuit_setCircuit_self]

theorem afterFailure_closed_below_threshold (c : CircuitStatus) (th cd now : Nat)
    (hst : c.state = .closed) (hlt : c.failures + 1 < th) :
    c.afterFailure th cd now
      = (⟨c.state, c.failures + 1, some now, c.cooldown_until, c.success_count⟩, false) := by
  unfold CircuitStatus.afterFailure
  dsimp only
  split_ifs with h1 h2
  · exact absurd h1.1 (by omega)
  · rw [hst] at h2; exact absurd h2 (by simp)
  · rfl

theorem afterFailure_trip (c : CircuitStatus) (th cd now : Nat)
    (hst : c.state ≠ .opened) (hge : th ≤ c.failures + 1) :
    c.afterFailure th cd now
      = (⟨.opened, c.failures + 1, some now, some (now + cd), c.success_count⟩, true) := by
  unfold CircuitStatus.afterFailure
  dsimp only
  rw [if_pos ⟨hge, hst⟩]

theorem afterFailure_halfOpen (c : CircuitStatus) (th cd now : Nat)
    (hst : c.state = .halfOpen) :
    c.afterFailure th cd now
      = (⟨.opened, c.failures + 1, some now, some (now + cd), c.success_count⟩, true) := by
  unfold CircuitStatus.afterFailure
  dsimp only
  split_ifs <;> rfl

/-- C3: with `failure_threshold = 3`, for a key whose circuit is CLOSED with
zero recorded failures, three consecutive `record_failure` calls return
`False`, `False`, `True` (the breaker trips exactly on the third call),
leave the circuit OPEN with `cooldown_until = now + cooldown_seconds`,
`is_available` answers `False` at every instant before `cooldown_until`, and
a `record_success` on any CLOSED circuit resets the failure counter to
zero. -/
theorem circuit_closed_trips_after_three_failures
    (b : CircuitBreaker) (k : String) (t1 t2 t3 : Nat)
    (hth : b.failure_threshold = 3)
    (hstate : (getCircuit b k).state = .closed)
    (hfail : (getCircuit b k).failures = 0) :
    (b.record_failure k t1).2 = false ∧
    ((b.record_failure k t1).1.record_failure k t2).2 = false ∧
    (((b.record_failure k t1).1.record_failure k t2).1.record_failure k t3).2 = true ∧
    (getCircuit (((b.record_failure k t1).1.record_failure k t2).1.record_failure k t3).1 k).state
      = .opened ∧
    (getCircuit (((b.record_failure k t1).1.record_failure k t2).1.record_failure k t3).1 k).cooldown_until
      = some (t3 + b.cooldown_seconds) ∧
    (∀ t, t < t3 + b.cooldown_seconds →
      ((((b.record_failure k t1).1.record_failure k t2).1.record_failure k t3).1.is_available k t).2
        = false) ∧
    (∀ (b2 : CircuitBreaker) (k2 : String), (getCircuit b2 k2).state = .closed →
      (getCircuit (b2.record_success k2) k2).failures = 0) := by
  rcases hc0 : getCircuit b k with ⟨s, f, lf, cu, sc⟩
  rw [hc0] at hstate hfail
  simp only at hstate hfail
  subst hstate; subst hfail
  have step1 := afterFailure_closed_below_threshold ⟨.closed, 0, lf, cu, sc⟩
    b.failure_threshold b.cooldown_seconds t1 rfl (by norm_num [hth])
  have s1 : (b.record_failure k t1).2 = false := by
    rw [record_failure_snd, hc0, step1]
  have g1 : getCircuit (b.record_failure k t1).1 k = ⟨.closed, 1, some t1, cu, sc⟩ := by
    rw [getCircuit_record_failure, hc0, step1]
  have step2 := afterFailure_closed_below_threshold ⟨.closed, 1, some t1, cu, sc⟩
    b.failure_threshold b.cooldown_seconds t2 rfl (by norm_num [hth])
  have s2 : ((b.record_failure k t1).1.record_failure k t2).2 = false := by
    rw [record_failure_snd, g1, record_failure_threshold, record_failure_cooldown, step2]
  have g2 : getCircuit ((b.record_failure k t1).1.record_failure k t2).1 k
      = ⟨.closed, 2, some t2, cu, sc⟩ := by
    rw [getCircuit_record_failure, g1, record_failure_threshold, record_failure_cooldown, step2]
  have step3 := afterFailure_trip ⟨.closed, 2, some t2, cu, sc⟩
    b.failure_threshold b.cooldown_seconds t3 (by simp) (by norm_num [hth])
  have s3 : (((b.record_failure k t1).1.record_failure k t2).1.record_failure k t3).2 = true := by
    rw [record_failure_snd, g2, record_failure_threshold, record_failure_threshold,
      record_failure_cooldown, record_failure_cooldown, step3]
  have g3 : getCircuit (((b.record_failure k t1).1.record_failure k t2).1.record_failure k t3).1 k
      = ⟨.opened, 3, some t3, some (t3 + b.cooldown_seconds), sc⟩ := by
    rw [getCircuit_record_failure, g2, record_failure_threshold, record_failure_threshold,
      record_failure_cooldown, record_failure_cooldown, step3]
  have hl3 : lookupCircuit
      (((b.record_failure k t1).1.record_failure k t2).1.record_failure k t3).1.circuits k
      = some ⟨.opened, 3, some t3, some (t3 + b.cooldown_seconds), sc⟩ := by
    rw [lookupCircuit_record_failure, g2, record_failure_threshold, record_failure_threshold,
      record_failure_cooldown, record_failure_cooldown, step3]
  refine ⟨s1, s2, s3, by rw [g3], by rw [g3], ?_, ?_⟩
  · intro t ht
    unfold CircuitBreaker.is_available
    rw [hl3]
    dsimp only
    rw [if_neg (by omega)]
    simp [CircuitStatus.is_available]
    omega
  · exact fun b2 k2 h => record_success_closed_resets_failures b2 k2 h

theorem is_available_open_expired (b : CircuitBreaker) (k : String) (c : CircuitStatus)
    (cu now : Nat) (hl : lookupCircuit b.circuits k = some c) (hst : c.state = .opened)
    (hcu : c.cooldown_until = some cu) (hnow : cu ≤ now) :
    b.is_available k now
      = ({ b with circuits := setCircuit b.circuits k ⟨.halfOpen, c.failures, c.last_failure, some cu, 0⟩ }, true) := by
  unfold CircuitBreaker.is_available
  rw [hl]
  dsimp only
  rw [hst, hcu]
  dsimp only
  rw [if_pos hnow]

theorem record_success_halfOpen_step (b : CircuitBreaker) (k : String) (c : CircuitStatus)
    (hl : lookupCircuit b.circuits k = some c) (hst : c.state = .halfOpen)
    (hlt : c.success_count + 1 < b.half_open_successes) :
    b.record_success k
      = { b with circuits := setCircuit b.circuits k ⟨.halfOpen, c.failures, c.last_failure, c.cooldown_until, c.success_count + 1⟩ } := by
  unfold CircuitBreaker.record_success
  rw [hl]
  dsimp only
  rw [if_pos hst, if_neg (by omega), hst]

theorem record_success_halfOpen_close (b : CircuitBreaker) (k : String) (c : CircuitStatus)
    (hl : lookupCircuit b.circuits k = some c) (hst : c.state = .halfOpen)
    (hge : b.half_open_successes ≤ c.success_count + 1) :
    b.record_success k
      = { b with circuits := setCircuit b.circuits k ⟨.closed, 0, c.last_failure, none, c.success_count + 1⟩ } := by
  unfold CircuitBreaker.record_success
  rw [hl]
  dsimp only
  rw [if_pos hst, if_pos hge]

/-- C4: an OPEN circuit whose cooldown has expired becomes available again on
the first `is_available` read, which lazily flips it to HALF_OPEN with the
half-open success counter reset to zero; with `half_open_successes = 2`, two
consecutive `record_success` calls while HALF_OPEN close the circuit with the
failure counter reset to 0, and a single `record_failure` while HALF_OPEN
immediately reopens it with a freshly computed `cooldown_until`. -/
theorem circuit_open_recovers_via_half_open
    (b : CircuitBreaker) (k : String) (c : CircuitStatus) (cu now t : Nat)
    (hl : lookupCircuit b.circuits k = some c)
    (hst : c.state = .opened)
    (hcu : c.cooldown_until = some cu)
    (hho : b.half_open_successes = 2)
    (hnow : cu ≤ now) :
    (b.is_available k now).2 = true ∧
    (getCircuit (b.is_available k now).1 k).state = .halfOpen ∧
    (getCircuit (b.is_available k now).1 k).success_count = 0 ∧
    (getCircuit ((b.is_available k now).1.record_success k) k).state = .halfOpen ∧
    (getCircuit (((b.is_available k now).1.record_success k).record_success k) k).state = .closed ∧
    (getCircuit (((b.is_available k now).1.record_success k).record_success k) k).failures = 0 ∧
    ((b.is_available k now).1.record_failure k t).2 = true ∧
    (getCircuit ((b.is_available k now).1.record_failure k t).1 k).state = .opened ∧
    (getCircuit ((b.is_available k now).1.record_failure k t).1 k).cooldown_until
      = some (t + b.cooldown_seconds) := by
  obtain ⟨s, f, lf, cuo, sc⟩ := c
  simp only at hst hcu
  subst hst; subst hcu
  have h1 := is_available_open_expired b k ⟨.opened, f, lf, some cu, sc⟩ cu now hl rfl rfl hnow
  have havail : (b.is_available k now).2 = true := by rw [h1]
  have hg1 : getCircuit (b.is_available k now).1 k = ⟨.halfOpen, f, lf, some cu, 0⟩ := by
    rw [h1]; exact getCircuit_set _ _ _ _
  have hcd : (b.is_available k now).1.cooldown_seconds = b.cooldown_seconds := by rw [h1]
  have h2 : (b.is_available k now).1.record_success k
      = { b with circuits := setCircuit (setCircuit b.circuits k ⟨.halfOpen, f, lf, some cu, 0⟩) k ⟨.halfOpen, f, lf, some cu, 1⟩ } := by
    rw [h1]
    exact record_success_halfOpen_step _ k ⟨.halfOpen, f, lf, some cu, 0⟩
      (lookupCircuit_setCircuit_self _ _ _) rfl (by norm_num [hho])
  have hg2 : getCircuit ((b.is_available k now).1.record_success k) k
      = ⟨.halfOpen, f, lf, some cu, 1⟩ := by
    rw [h2]; exact getCircuit_set _ _ _ _
  have h3 : ((b.is_available k now).1.record_success k).record_success k
      = { b with circuits := setCircuit (setCircuit (setCircuit b.circuits k ⟨.halfOpen, f, lf, some cu, 0⟩) k ⟨.halfOpen, f, lf, some cu, 1⟩) k ⟨.closed, 0, lf, none, 2⟩ } := by
    rw [h2]
    exact record_success_halfOpen_close _ k ⟨.halfOpen, f, lf, some cu, 1⟩
      (lookupCircuit_setCircuit_self _ _ _) rfl (by norm_num [hho])
  have hg3 : getCircuit (((b.is_available k now).1.record_success k).record_success k) k
      = ⟨.closed, 0, lf, none, 2⟩ := by
    rw [h3]; exact getCircuit_set _ _ _ _
  have hfail2 : ((b.is_available k now).1.record_failure k t).2 = true := by
    rw [record_failure_snd, hg1, afterFailure_halfOpen ⟨.halfOpen, f, lf, some cu, 0⟩ _ _ t rfl]
  have hgf : getCircuit ((b.is_available k now).1.record_failure k t).1 k
      = ⟨.opened, f + 1, some t, some (t + b.cooldown_seconds), 0⟩ := by
    rw [getCircuit_record_failure, hg1, hcd,
      afterFailure_halfOpen ⟨.halfOpen, f, lf, some cu, 0⟩ _ _ t rfl]
  exact ⟨havail, by rw [hg1], by rw [hg1], by rw [hg2], by rw [hg3], by rw [hg3],
    hfail2, by rw [hgf], by rw [hgf]⟩

/-- Witness for C3 at the default breaker configuration, key "CA" and
failure times 10, 20, 30. -/
theorem circuit_closed_trips_after_three_failures_witness :
    (({} : CircuitBreaker).failure_threshold = 3 ∧
      (getCircuit ({} : CircuitBreaker) "CA").state = .closed ∧
      (getCircuit ({} : CircuitBreaker) "CA").failures = 0) ∧
    ((({} : CircuitBreaker).record_failure "CA" 10).2 = false ∧
    ((({} : CircuitBreaker).record_failure "CA" 10).1.record_failure "CA" 20).2 = false ∧
    (((({} : CircuitBreaker).record_failure "CA" 10).1.record_failure "CA" 20).1.record_failure "CA" 30).2 = true ∧
    (getCircuit ((((({} : CircuitBreaker)).record_failure "CA" 10).1.record_failure "CA" 20).1.record_failure "CA" 30).1 "CA").state
      = .opened ∧
    (getCircuit ((((({} : CircuitBreaker)).record_failure "CA" 10).1.record_failure "CA" 20).1.record_failure "CA" 30).1 "CA").cooldown_until
      = some (30 + ({} : CircuitBreaker).cooldown_seconds) ∧
    (∀ t, t < 30 + ({} : CircuitBreaker).cooldown_seconds →
      (((((({} : CircuitBreaker)).record_failure "CA" 10).1.record_failure "CA" 20).1.record_failure "CA" 30).1.is_available "CA" t).2
        = false) ∧
    (∀ (b2 : CircuitBreaker) (k2 : String), (getCircuit b2 k2).state = .closed →
      (getCircuit (b2.record_success k2) k2).failures = 0)) :=
  ⟨⟨rfl, rfl, rfl⟩,
    circuit_closed_trips_after_three_failures {} "CA" 10 20 30 rfl rfl rfl⟩

/-- Witness for C4 at a concrete breaker whose "CA" circuit is OPEN with an
expired cooldown. -/
theorem circuit_open_recovers_via_half_open_witness :
    (lookupCircuit (CircuitBreaker.mk 3 3600 2 [("CA", ⟨.opened, 3, some 5, some 100, 7⟩)]).circuits "CA"
        = some ⟨.opened, 3, some 5, some 100, 7⟩ ∧
      (⟨.opened, 3, some 5, some 100, 7⟩ : CircuitStatus).state = .opened ∧
      (⟨.opened, 3, some 5, some 100, 7⟩ : CircuitStatus).cooldown_until = some 100 ∧
      (CircuitBreaker.mk 3 3600 2 [("CA", ⟨.opened, 3, some 5, some 100, 7⟩)]).half_open_successes = 2 ∧
      (100 : Nat) ≤ 100) ∧
    (((CircuitBreaker.mk 3 3600 2 [("CA", ⟨.opened, 3, some 5, some 100, 7⟩)]).is_available "CA" 100).2 = true ∧
    (getCircuit ((CircuitBreaker.mk 3 3600 2 [("CA", ⟨.opened, 3, some 5, some 100, 7⟩)]).is_available "CA" 100).1 "CA").state = .halfOpen ∧
    (getCircuit ((CircuitBreaker.mk 3 3600 2 [("CA", ⟨.opened, 3, some 5, some 100, 7⟩)]).is_available "CA" 100).1 "CA").success_count = 0 ∧
    (getCircuit (((CircuitBreaker.mk 3 3600 2 [("CA", ⟨.opened, 3, some 5, some 100, 7⟩)]).is_available "CA" 100).1.record_success "CA") "CA").state = .halfOpen ∧
    (getCircuit ((((CircuitBreaker.mk 3 3600 2 [("CA", ⟨.opened, 3, some 5, some 100, 7⟩)]).is_available "CA" 100).1.record_success "CA").record_success "CA") "CA").state = .closed ∧
    (getCircuit ((((CircuitBreaker.mk 3 3600 2 [("CA", ⟨.opened, 3, some 5, some 100, 7⟩)]).is_available "CA" 100).1.record_success "CA").record_success "CA") "CA").failures = 0 ∧
    (((CircuitBreaker.mk 3 3600 2 [("CA", ⟨.opened, 3, some 5, some 100, 7⟩)]).is_available "CA" 100).1.record_failure "CA" 200).2 = true ∧
    (getCircuit (((CircuitBreaker.mk 3 3600 2 [("CA", ⟨.opened, 3, some 5, some 100, 7⟩)]).is_available "CA" 100).1.record_failure "CA" 200).1 "CA").state = .opened ∧
    (getCircuit (((CircuitBreaker.mk 3 3600 2 [("CA", ⟨.opened, 3, some 5, some 100, 7⟩)]).is_available "CA" 100).1.record_failure "CA" 200).1 "CA").cooldown_until
      = some (200 + (CircuitBreaker.mk 3 3600 2 [("CA", ⟨.opened, 3, some 5, some 100, 7⟩)]).cooldown_seconds)) :=
  ⟨⟨by decide, rfl, rfl, rfl, by decide⟩,
    circuit_open_recovers_via_half_open
      (CircuitBreaker.mk 3 3600 2 [("CA", ⟨.opened, 3, some 5, some 100, 7⟩)]) "CA"
      ⟨.opened, 3, some 5, some 100, 7⟩ 100 100 200 (by decide) rfl rfl rfl (by decide)⟩

/-! ## Credential pool (`key_pool.py`) -/

/-- The `KeyUsage` dataclass with its field defaults. -/
structure KeyUsage where
  key : String
  requests_made : Nat := 0
  last_used : Option Nat := none
  errors : Nat := 0
  rate_limited_until : Option Nat := none
deriving DecidableEq, Repr

/-- The rate-limit test performed inside `get_next_key`:
`key_usage.rate_limited_until and key_usage.rate_limited_until > now`. -/
def KeyUsage.isLimited (ku : KeyUsage) (now : Nat) : Bool :=
  match ku.rate_limited_until with
  | some r => decide (now < r)
  | none => false

/-- The `KeyPool` class: the `_keys` list and the `_index` round-robin
cursor. -/
structure KeyPool where
  keys : List KeyUsage
  index : Nat
deriving DecidableEq, Repr

/-- `KeyPool.__init__`: raises `ValueError` (modelled as `none`) when the
configured list is empty, otherwise keeps only truthy (non-empty) strings
and starts the cursor at 0. -/
def KeyPool.init (keys : List String) : Option KeyPool :=
  if keys = [] then none
  else some ⟨(keys.filter (fun k => k ≠ "")).map (fun k => { key := k }), 0⟩

/-- `key_count` property. -/
def KeyPool.key_count (p : KeyPool) : Nat := p.keys.length

/-- The `for attempt in range(self.key_count)` loop of `get_next_key`:
inspect the credential under the cursor, advance the cursor modulo the pool
size, skip it when rate-limited, otherwise bump its usage stats and return
its key.  The fuel is the remaining number of loop iterations. -/
def getNextKeyLoop (now : Nat) : Nat → KeyPool → Option (String × KeyPool)
  | 0, _ => none
  | fuel + 1, p =>
    match p.keys.get? p.index with
    | none => none
    | some ku =>
      let p1 : KeyPool := { p with index := (p.index + 1) % p.keys.length }
      if ku.isLimited now then
        getNextKeyLoop now fuel p1
      else
        let ku1 : KeyUsage := { ku with requests_made := ku.requests_made + 1, last_used := some now }
        some (ku.key, { p1 with keys := p1.keys.set p.index ku1 })

/-- `KeyPool.get_next_key`: run one round of the loop; if every credential
was rate-limited, fall back to `self._keys[0]` — `none` models the uncaught
`IndexError` this raises on an empty internal list. -/
def KeyPool.get_next_key (p : KeyPool) (now : Nat) : Option (String × KeyPool) :=
  match getNextKeyLoop now p.keys.length p with
  | some r => some r
  | none =>
    match p.keys.get? 0 with
    | none => none
    | some ku =>
      let ku1 : KeyUsage := { ku with requests_made := ku.requests_made + 1, last_used := some now }
      some (ku.key, { p with keys := p.keys.set 0 ku1 })

theorem getNextKeyLoop_key_not_limited (now : Nat) :
    ∀ (fuel : Nat) (p : KeyPool) (k : String) (p' : KeyPool),
      getNextKeyLoop now fuel p = some (k, p') →
      ∃ ku ∈ p.keys, ku.key = k ∧ ku.isLimited now = false := by
  intro fuel
  induction fuel with
  | zero => intro p k p' h; simp [getNextKeyLoop] at h
  | succ n ih =>
    intro p k p' h
    unfold getNextKeyLoop at h
    split at h
    · exact absurd h (by simp)
    · rename_i ku hku
      dsimp only at h
      by_cases hlim : ku.isLimited now = true
      · rw [if_pos hlim] at h
        obtain ⟨ku', hmem, hkey, hfree⟩ := ih _ k p' h
        exact ⟨ku', hmem, hkey, hfree⟩
      · rw [if_neg hlim] at h
        injection h with h1
        injection h1 with hk hp
        exact ⟨ku, List.get?_mem hku, hk, by simpa using hlim⟩

theorem getNextKeyLoop_finds (now : Nat) :
    ∀ (fuel : Nat) (p : KeyPool), p.index < p.keys.length →
      (∃ d < fuel, ∃ ku, p.keys.get? ((p.index + d) % p.keys.length) = some ku ∧
        ku.isLimited now = false) →
      (getNextKeyLoop now fuel p).isSome := by
  intro fuel
  induction fuel with
  | zero => intro p _ h; obtain ⟨d, hd, _⟩ := h; omega
  | succ n ih =>
    intro p hidx h
    have hlen : 0 < p.keys.length := Nat.lt_of_le_of_lt (Nat.zero_le _) hidx
    unfold getNextKeyLoop
    split
    · rename_i hnone
      have hg : p.keys.get? p.index = some (p.keys.get ⟨p.index, hidx⟩) := List.get?_eq_get hidx
      rw [hg] at hnone
      exact absurd hnone (by simp)
    · rename_i ku hku
      dsimp only
      by_cases hlim : ku.isLimited now = true
      · rw [if_pos hlim]
        obtain ⟨d, hd, ku', hget, hfree⟩ := h
        have hdpos : d ≠ 0 := by
          intro hd0
          subst hd0
          rw [Nat.add_zero, Nat.mod_eq_of_lt hidx, hku] at hget
          have heq := Option.some.inj hget
          rw [heq] at hlim
          rw [hfree] at hlim
          cases hlim
        obtain ⟨d', rfl⟩ := Nat.exists_eq_succ_of_ne_zero hdpos
        apply ih
        · exact Nat.mod_lt _ hlen
        · refine ⟨d', by omega, ku', ?_, hfree⟩
          show p.keys.get? (((p.index + 1) % p.keys.length + d') % p.keys.length) = some ku'
          rw [Nat.mod_add_mod]
          have harg : p.index + 1 + d' = p.index + (d' + 1) := by omega
          rw [harg]
          exact hget
      · rw [if_neg hlim]
        simp

theorem getNextKeyLoop_all_limited (now : Nat) :
    ∀ (fuel : Nat) (p : KeyPool), (∀ ku ∈ p.keys, ku.isLimited now = true) →
      getNextKeyLoop now fuel p = none := by
  intro fuel
  induction fuel with
  | zero => intro p _; rfl
  | succ n ih =>
    intro p hall
    unfold getNextKeyLoop
    split
    · rfl
    · rename_i ku hku
      dsimp only
      rw [if_pos (hall ku (List.get?_mem hku))]
      exact ih _ (fun ku' hm => hall ku' hm)

/-- C7: `get_next_key` on a pool with a valid cursor returns the key of a
credential that is not currently rate-limited whenever one exists, and when
every credential is rate-limited it still returns the first credential's key
(never blocking or raising) as long as the internal list is non-empty. -/
theorem get_next_key_spec (p : KeyPool) (now : Nat) (hwf : p.index < p.keys.length) :
    ((∃ ku ∈ p.keys, ku.isLimited now = false) →
      ∃ k p', p.get_next_key now = some (k, p') ∧
        ∃ ku ∈ p.keys, ku.key = k ∧ ku.isLimited now = false) ∧
    ((∀ ku ∈ p.keys, ku.isLimited now = true) → ∀ ku0, p.keys.get? 0 = some ku0 →
      ∃ p', p.get_next_key now = some (ku0.key, p')) := by
  have hlen : 0 < p.keys.length := Nat.lt_of_le_of_lt (Nat.zero_le _) hwf
  constructor
  · rintro ⟨ku, hmem, hfree⟩
    obtain ⟨j, hget⟩ := List.mem_iff_get?.mp hmem
    obtain ⟨hj, -⟩ := List.get?_eq_some.mp hget
    have hidxeq : (p.index + (j + p.keys.length - p.index) % p.keys.length) % p.keys.length
        = j := by
      rw [Nat.add_mod_mod]
      have harith : p.index + (j + p.keys.length - p.index) = j + p.keys.length := by omega
      rw [harith, Nat.add_mod_right, Nat.mod_eq_of_lt hj]
    have hsome := getNextKeyLoop_finds now p.keys.length p hwf
      ⟨(j + p.keys.length - p.index) % p.keys.length, Nat.mod_lt _ hlen, ku,
        by rw [hidxeq]; exact hget, hfree⟩
    obtain ⟨r, hr⟩ := Option.isSome_iff_exists.mp hsome
    obtain ⟨k, p'⟩ := r
    have hres : p.get_next_key now = some (k, p') := by
      unfold KeyPool.get_next_key
      rw [hr]
    exact ⟨k, p', hres, getNextKeyLoop_key_not_limited now _ p k p' hr⟩
  · intro hall ku0 hget0
    have hnone := getNextKeyLoop_all_limited now p.keys.length p hall
    refine ⟨{ p with keys := p.keys.set 0 ⟨ku0.key, ku0.requests_made + 1, some now, ku0.errors, ku0.rate_limited_until⟩ }, ?_⟩
    unfold KeyPool.get_next_key
    rw [hnone, hget0]

/-- A concrete two-credential pool whose first credential is rate-limited
until time 50. -/
def samplePool : KeyPool :=
  ⟨[⟨"k1", 0, none, 0, some 50⟩, ⟨"k2", 0, none, 0, none⟩], 0⟩

/-- Witness for C7 on `samplePool` at time 10 (first credential limited,
second free). -/
theorem get_next_key_spec_witness :
    samplePool.index < samplePool.keys.length ∧
    (((∃ ku ∈ samplePool.keys, ku.isLimited 10 = false) →
      ∃ k p', samplePool.get_next_key 10 = some (k, p') ∧
        ∃ ku ∈ samplePool.keys, ku.key = k ∧ ku.isLimited 10 = false) ∧
    ((∀ ku ∈ samplePool.keys, ku.isLimited 10 = true) →
      ∀ ku0, samplePool.keys.get? 0 = some ku0 →
        ∃ p', samplePool.get_next_key 10 = some (ku0.key, p'))) :=
  ⟨by decide, get_next_key_spec samplePool 10 (by decide)⟩

/-- C10: `KeyPool.__init__` accepts the non-empty list `[""]` but filters the
falsy entry out, leaving zero credentials, and the subsequent `get_next_key`
call hits an unhandled `IndexError` (modelled as `none`) in the
all-rate-limited fallback. -/
theorem keyPool_init_empty_string_then_index_error :
    KeyPool.init [""] = some ⟨[], 0⟩ ∧
    (⟨[], 0⟩ : KeyPool).key_count = 0 ∧
    (⟨[], 0⟩ : KeyPool).get_next_key 0 = none :=
  ⟨rfl, rfl, rfl⟩

/-! ## Rate-limited HTTP client (`http_client.py`) -/

/-- Helper for `KeyPool.mark_rate_limited`: set `rate_limited_until` and bump
the error counter on the first credential matching `key` (the source loop
breaks after the first match). -/
def markRateLimitedKeys : List KeyUsage → String → Nat → List KeyUsage
  | [], _, _ => []
  | ku :: rest, key, untilTime =>
    if ku.key = key then
      { ku with rate_limited_until := some untilTime, errors := ku.errors + 1 } :: rest
    else
      ku :: markRateLimitedKeys rest key untilTime

/-- `KeyPool.mark_rate_limited` (`cooldown_seconds` defaults to 3600). -/
def KeyPool.mark_rate_limited (p : KeyPool) (key : String) (now cooldown : Nat) : KeyPool :=
  { p with keys := markRateLimitedKeys p.keys key (now + cooldown) }

/-- The outcome of the network interaction inside `HTTPClient.get`: the HTTP
status class of the response, or the exception the call raised. -/
inductive HttpOutcome where
  | ok (payload : Nat)
  | status429
  | status5xx
  | statusOther
  | timeout
  | clientError
deriving DecidableEq, Repr

/-- The mutable state of an `HTTPClient`, extended with model-level
observables: limiter tokens taken (`limiter.acquire`), semaphore slots taken,
and network requests actually issued (`session.get`). -/
structure HTTPClient where
  circuit_breaker : CircuitBreaker
  key_pool : KeyPool
  request_count : Nat := 0
  error_count : Nat := 0
  tokens_acquired : Nat := 0
  slots_acquired : Nat := 0
  network_requests : Nat := 0
deriving DecidableEq, Repr

/-- Everything `HTTPClient.get` does after the circuit-breaker gate: acquire
the semaphore slot and the limiter token, pick a credential, issue the
request and handle the response exactly as the source does.  `none` models an
exception escaping `get` itself (the key pool's `IndexError` is raised
outside the `try`).  No proxy is configured, so the proxy branches are
inert. -/
def getAfterGate (st : HTTPClient) (circuit_id : Option String) (now : Nat)
    (outcome : HttpOutcome) : Option (HTTPClient × Option Nat) :=
  let st1 : HTTPClient :=
    { st with slots_acquired := st.slots_acquired + 1, tokens_acquired := st.tokens_acquired + 1 }
  match st1.key_pool.get_next_key now with
  | none => none
  | some (api_key, pool1) =>
    let st2 : HTTPClient :=
      { st1 with key_pool := pool1, network_requests := st1.network_requests + 1 }
    match outcome with
    | .ok payload =>
      let st3 : HTTPClient := { st2 with request_count := st2.request_count + 1 }
      match circuit_id with
      | some cid =>
        some ({ st3 with circuit_breaker := st3.circuit_breaker.record_success cid }, some payload)
      | none => some (st3, some payload)
    | .status429 =>
      let st3 : HTTPClient := { st2 with request_count := st2.request_count + 1 }
      let pool2 : KeyPool := st3.key_pool.mark_rate_limited api_key now 3600
      some ({ st3 with key_pool := pool2, error_count := st3.error_count + 1 }, none)
    | .status5xx =>
      let st3 : HTTPClient :=
        { st2 with request_count := st2.request_count + 1, error_count := st2.error_count + 1 }
      match circuit_id with
      | some cid =>
        some ({ st3 with circuit_breaker := (st3.circuit_breaker.record_failure cid now).1 }, none)
      | none => some (st3, none)
    | .statusOther =>
      let st3 : HTTPClient :=
        { st2 with request_count := st2.request_count + 1, error_count := st2.error_count + 1 }
      some (st3, none)
    | .timeout =>
      let st3 : HTTPClient := { st2 with error_count := st2.error_count + 1 }
      match circuit_id with
      | some cid =>
        some ({ st3 with circuit_breaker := (st3.circuit_breaker.record_failure cid now).1 }, none)
      | none => some (st3, none)
    | .clientError =>
      let st3 : HTTPClient := { st2 with error_count := st2.error_count + 1 }
      some (st3, none)

/-- `HTTPClient.get`: the circuit-breaker availability gate (which may
lazily mutate the breaker), then the protected call. -/
def HTTPClient.get (st : HTTPClient) (circuit_id : Option String) (now : Nat)
    (outcome : HttpOutcome) : Option (HTTPClient × Option Nat) :=
  match circuit_id with
  | some cid =>
    let r := st.circuit_breaker.is_available cid now
    if r.2 then getAfterGate { st with circuit_breaker := r.1 } (some cid) now outcome
    else some ({ st with circuit_breaker := r.1 }, none)
  | none => getAfterGate st none now outcome

/-- C5: when the circuit breaker reports a `circuit_id` unavailable, `get`
returns `nil` without issuing a network request, without taking a limiter
token or a concurrency slot, and without touching the credential pool. -/
theorem http_get_short_circuits_when_circuit_open (st : HTTPClient) (cid : String)
    (now : Nat) (outcome : HttpOutcome)
    (hunavail : (st.circuit_breaker.is_available cid now).2 = false) :
    st.get (some cid) now outcome
      = some ({ st with circuit_breaker := (st.circuit_breaker.is_available cid now).1 }, none) ∧
    ({ st with circuit_breaker := (st.circuit_breaker.is_available cid now).1 } : HTTPClient).network_requests
      = st.network_requests ∧
    ({ st with circuit_breaker := (st.circuit_breaker.is_available cid now).1 } : HTTPClient).tokens_acquired
      = st.tokens_acquired ∧
    ({ st with circuit_breaker := (st.circuit_breaker.is_available cid now).1 } : HTTPClient).slots_acquired
      = st.slots_acquired ∧
    ({ st with circuit_breaker := (st.circuit_breaker.is_available cid now).1 } : HTTPClient).key_pool
      = st.key_pool := by
  refine ⟨?_, rfl, rfl, rfl, rfl⟩
  unfold HTTPClient.get
  dsimp only
  rw [hunavail]
  simp

/-- A concrete client whose "CA" circuit is OPEN with an unexpired cooldown
at time 0. -/
def sampleClientOpen : HTTPClient :=
  HTTPClient.mk ⟨3, 3600, 2, [("CA", ⟨.opened, 3, some 5, some 100, 0⟩)]⟩
    ⟨[⟨"k", 0, none, 0, none⟩], 0⟩ 0 0 0 0 0

/-- Witness for C5 on `sampleClientOpen` (the gate leaves this client's
state unchanged, so the short-circuit result is the client itself). -/
theorem http_get_short_circuits_witness :
    (sampleClientOpen.circuit_breaker.is_available "CA" 0).2 = false ∧
    (sampleClientOpen.get (some "CA") 0 .timeout = some (sampleClientOpen, none) ∧
      sampleClientOpen.network_requests = sampleClientOpen.network_requests ∧
      sampleClientOpen.tokens_acquired = sampleClientOpen.tokens_acquired ∧
      sampleClientOpen.slots_acquired = sampleClientOpen.slots_acquired ∧
      sampleClientOpen.key_pool = sampleClientOpen.key_pool) :=
  ⟨by decide,
    http_get_short_circuits_when_circuit_open sampleClientOpen "CA" 0 .timeout (by decide)⟩

theorem get_gate_pass (st : HTTPClient) (cid : String) (now : Nat) (outcome : HttpOutcome)
    (havail : (st.circuit_breaker.is_available cid now).2 = true) :
    st.get (some cid) now outcome
      = getAfterGate { st with circuit_breaker := (st.circuit_breaker.is_available cid now).1 }
          (some cid) now outcome := by
  unfold HTTPClient.get
  dsimp only
  rw [havail]
  simp

theorem getAfterGate_timeout (st : HTTPClient) (cid : String) (now : Nat) (k : String)
    (pool' : KeyPool) (hk : st.key_pool.get_next_key now = some (k, pool')) :
    getAfterGate st (some cid) now .timeout
      = some ({ st with circuit_breaker := (st.circuit_breaker.record_failure cid now).1, key_pool := pool', error_count := st.error_count + 1, tokens_acquired := st.tokens_acquired + 1, slots_acquired := st.slots_acquired + 1, network_requests := st.network_requests + 1 }, none) := by
  unfold getAfterGate
  dsimp only
  rw [hk]

theorem getAfterGate_client_error (st : HTTPClient) (cid : String) (now : Nat) (k : String)
    (pool' : KeyPool) (hk : st.key_pool.get_next_key now = some (k, pool')) :
    getAfterGate st (some cid) now .clientError
      = some ({ st with key_pool := pool', error_count := st.error_count + 1, tokens_acquired := st.tokens_acquired + 1, slots_acquired := st.slots_acquired + 1, network_requests := st.network_requests + 1 }, none) := by
  unfold getAfterGate
  dsimp only
  rw [hk]

/-- C6 (amended): when the circuit gate passes and a credential is selected,
a per-call timeout records a failure on the circuit breaker for `circuit_id`,
increments the error counter and returns `nil`; a transport error
(`aiohttp.ClientError`) increments the error counter and returns `nil` but
records no failure on the circuit breaker (the source's `ClientError` handler
never calls `record_failure`). -/
theorem http_get_timeout_vs_transport_error (st : HTTPClient) (cid : String) (now : Nat)
    (k : String) (pool' : KeyPool)
    (havail : (st.circuit_breaker.is_available cid now).2 = true)
    (hk : st.key_pool.get_next_key now = some (k, pool')) :
    st.get (some cid) now .timeout
      = some ({ st with circuit_breaker := ((st.circuit_breaker.is_available cid now).1.record_failure cid now).1, key_pool := pool', error_count := st.error_count + 1, tokens_acquired := st.tokens_acquired + 1, slots_acquired := st.slots_acquired + 1, network_requests := st.network_requests + 1 }, none) ∧
    st.get (some cid) now .clientError
      = some ({ st with circuit_breaker := (st.circuit_breaker.is_available cid now).1, key_pool := pool', error_count := st.error_count + 1, tokens_acquired := st.tokens_acquired + 1, slots_acquired := st.slots_acquired + 1, network_requests := st.network_requests + 1 }, none) := by
  constructor
  · rw [get_gate_pass st cid now .timeout havail,
      getAfterGate_timeout { st with circuit_breaker := (st.circuit_breaker.is_available cid now).1 } cid now k pool' hk]
  · rw [get_gate_pass st cid now .clientError havail,
      getAfterGate_client_error { st with circuit_breaker := (st.circuit_breaker.is_available cid now).1 } cid now k pool' hk]

/-- Counterexample for C6 as stated: at a client with a fresh (empty)
breaker, a transport error leaves the breaker completely unchanged — no
failure is recorded for "CA" (a `record_failure` would have left the "CA"
circuit with `failures = 1`). -/
theorem http_get_client_error_counterexample :
    HTTPClient.get (HTTPClient.mk ⟨3, 3600, 2, []⟩ ⟨[⟨"k", 0, none, 0, none⟩], 0⟩ 0 0 0 0 0)
        (some "CA") 0 .clientError
      = some (HTTPClient.mk ⟨3, 3600, 2, []⟩ ⟨[⟨"k", 1, some 0, 0, none⟩], 0⟩ 0 1 1 1 1, none) ∧
    (getCircuit (⟨3, 3600, 2, []⟩ : CircuitBreaker) "CA").failures = 0 := by
  decide

/-- Witness for the amended C6 at a concrete client with a fresh breaker and
a one-credential pool. -/
theorem http_get_timeout_vs_transport_error_witness :
    (((HTTPClient.mk ⟨3, 3600, 2, []⟩ ⟨[⟨"k", 0, none, 0, none⟩], 0⟩ 0 0 0 0 0).circuit_breaker.is_available "CA" 0).2 = true ∧
      (HTTPClient.mk ⟨3, 3600, 2, []⟩ ⟨[⟨"k", 0, none, 0, none⟩], 0⟩ 0 0 0 0 0).key_pool.get_next_key 0 = some ("k", ⟨[⟨"k", 1, some 0, 0, none⟩], 0⟩)) ∧
    ((HTTPClient.mk ⟨3, 3600, 2, []⟩ ⟨[⟨"k", 0, none, 0, none⟩], 0⟩ 0 0 0 0 0).get (some "CA") 0 .timeout
      = some ({ HTTPClient.mk ⟨3, 3600, 2, []⟩ ⟨[⟨"k", 0, none, 0, none⟩], 0⟩ 0 0 0 0 0 with circuit_breaker := (((HTTPClient.mk ⟨3, 3600, 2, []⟩ ⟨[⟨"k", 0, none, 0, none⟩], 0⟩ 0 0 0 0 0).circuit_breaker.is_available "CA" 0).1.record_failure "CA" 0).1, key_pool := ⟨[⟨"k", 1, some 0, 0, none⟩], 0⟩, error_count := 0 + 1, tokens_acquired := 0 + 1, slots_acquired := 0 + 1, network_requests := 0 + 1 }, none) ∧
    (HTTPClient.mk ⟨3, 3600, 2, []⟩ ⟨[⟨"k", 0, none, 0, none⟩], 0⟩ 0 0 0 0 0).get (some "CA") 0 .clientError
      = some ({ HTTPClient.mk ⟨3, 3600, 2, []⟩ ⟨[⟨"k", 0, none, 0, none⟩], 0⟩ 0 0 0 0 0 with circuit_breaker := ((HTTPClient.mk ⟨3, 3600, 2, []⟩ ⟨[⟨"k", 0, none, 0, none⟩], 0⟩ 0 0 0 0 0).circuit_breaker.is_available "CA" 0).1, key_pool := ⟨[⟨"k", 1, some 0, 0, none⟩], 0⟩, error_count := 0 + 1, tokens_acquired := 0 + 1, slots_acquired := 0 + 1, network_requests := 0 + 1 }, none)) :=
  ⟨⟨by decide, by decide⟩,
    http_get_timeout_vs_transport_error
      (HTTPClient.mk ⟨3, 3600, 2, []⟩ ⟨[⟨"k", 0, none, 0, none⟩], 0⟩ 0 0 0 0 0) "CA" 0 "k"
      ⟨[⟨"k", 1, some 0, 0, none⟩], 0⟩ (by decide) (by decide)⟩

/-- The `for attempt in range(max_retries)` loop of
`HTTPClient.get_with_retry`, started at `attempt`.  `results n` is the
payload the n-th `get` call returns.  The result carries the returned
payload, the total number of `get` calls made, and the list of back-off
sleeps (`2 ** attempt` seconds) performed between consecutive attempts. -/
def getWithRetryLoop (results : Nat → Option Nat) (max_retries attempt : Nat) :
    Option Nat × Nat × List Nat :=
  if h : attempt < max_retries then
    match results attempt with
    | some r => (some r, attempt + 1, [])
    | none =>
      if attempt < max_retries - 1 then
        let rest := getWithRetryLoop results max_retries (attempt + 1)
        (rest.1, rest.2.1, 2 ^ attempt :: rest.2.2)
      else
        (none, attempt + 1, [])
  else
    (none, attempt, [])
termination_by max_retries - attempt
decreasing_by omega

/-- `HTTPClient.get_with_retry` over an oracle assigning each attempt its
`get` result (the source's `max_retries` defaults to 3). -/
def get_with_retry (results : Nat → Option Nat) (max_retries : Nat) :
    Option Nat × Nat × List Nat :=
  getWithRetryLoop results max_retries 0

theorem getWithRetryLoop_attempts_le (results : Nat → Option Nat) (k : Nat) :
    ∀ (n a : Nat), n = k - a → a ≤ k → (getWithRetryLoop results k a).2.1 ≤ k := by
  intro n
  induction n with
  | zero =>
    intro a hn ha
    have hak : a = k := by omega
    subst hak
    unfold getWithRetryLoop
    rw [dif_neg (by omega)]
  | succ m ih =>
    intro a hn ha
    have hak : a < k := by omega
    unfold getWithRetryLoop
    rw [dif_pos hak]
    cases results a with
    | some r => dsimp only; omega
    | none =>
      dsimp only
      by_cases hlast : a < k - 1
      · rw [if_pos hlast]
        dsimp only
        exact ih (a + 1) (by omega) (by omega)
      · rw [if_neg hlast]
        dsimp only
        omega

theorem getWithRetryLoop_all_none (results : Nat → Option Nat) (k : Nat) :
    ∀ (n a : Nat), n = k - a → a ≤ k → (∀ i, a ≤ i → i < k → results i = none) →
      getWithRetryLoop results k a
        = (none, k, (List.range' a (k - 1 - a)).map (fun x => 2 ^ x)) := by
  intro n
  induction n with
  | zero =>
    intro a hn ha _
    have hak : a = k := by omega
    subst hak
    unfold getWithRetryLoop
    rw [dif_neg (by omega)]
    have : a - 1 - a = 0 := by omega
    rw [this]
    rfl
  | succ m ih =>
    intro a hn ha hnone
    have hak : a < k := by omega
    unfold getWithRetryLoop
    rw [dif_pos hak, hnone a (Nat.le_refl a) hak]
    dsimp only
    by_cases hlast : a < k - 1
    · rw [if_pos hlast]
      rw [ih (a + 1) (by omega) (by omega) (fun i hi hik => hnone i (by omega) hik)]
      dsimp only
      have hlen : k - 1 - a = (k - 1 - (a + 1)) + 1 := by omega
      rw [hlen, List.range'_succ]
      rfl
    · rw [if_neg hlast]
      have ha1 : a + 1 = k := by omega
      have hlen : k - 1 - a = 0 := by omega
      rw [ha1, hlen]
      rfl

theorem getWithRetryLoop_first_some (results : Nat → Option Nat) (k j : Nat) (p : Nat)
    (hjk : j < k) (hp : results j = some p) :
    ∀ (n a : Nat), n = j - a → a ≤ j → (∀ i, a ≤ i → i < j → results i = none) →
      getWithRetryLoop results k a
        = (some p, j + 1, (List.range' a (j - a)).map (fun x => 2 ^ x)) := by
  intro n
  induction n with
  | zero =>
    intro a hn ha _
    have haj : a = j := by omega
    subst haj
    unfold getWithRetryLoop
    rw [dif_pos (by omega), hp]
    have : a - a = 0 := by omega
    rw [this]
    rfl
  | succ m ih =>
    intro a hn ha hnone
    have haj : a < j := by omega
    unfold getWithRetryLoop
    rw [dif_pos (by omega), hnone a (Nat.le_refl a) haj]
    dsimp only
    rw [if_pos (by omega)]
    rw [ih (a + 1) (by omega) (by omega) (fun i hi hij => hnone i (by omega) hij)]
    dsimp only
    have hlen : j - a = (j - (a + 1)) + 1 := by omega
    rw [hlen, List.range'_succ]
    rfl

/-- C8: for `max_retries = k ≥ 1`, `get_with_retry` makes at most `k` `get`
calls; when every attempt fails it returns `nil` after exactly `k` attempts
with sleeps 2^0, 2^1, …, 2^(k-2) between the attempts (none after the last);
when attempt `j` is the first to return a non-nil payload it returns that
payload after exactly `j + 1` attempts (no further attempts), having slept
2^0, …, 2^(j-1). -/
theorem get_with_retry_spec (results : Nat → Option Nat) (k : Nat) (hk : 1 ≤ k) :
    (get_with_retry results k).2.1 ≤ k ∧
    ((∀ i, i < k → results i = none) →
      get_with_retry results k = (none, k, (List.range (k - 1)).map (fun x => 2 ^ x))) ∧
    (∀ j p, j < k → results j = some p → (∀ i, i < j → results i = none) →
      get_with_retry results k = (some p, j + 1, (List.range j).map (fun x => 2 ^ x))) := by
  refine ⟨?_, ?_, ?_⟩
  · exact getWithRetryLoop_attempts_le results k (k - 0) 0 rfl (Nat.zero_le k)
  · intro hnone
    have h := getWithRetryLoop_all_none results k (k - 0) 0 rfl (Nat.zero_le k)
      (fun i _ hik => hnone i hik)
    rw [List.range_eq_range']
    exact h
  · intro j p hjk hp hnone
    have h := getWithRetryLoop_first_some results k j p hjk hp (j - 0) 0 rfl (Nat.zero_le j)
      (fun i _ hij => hnone i hij)
    rw [List.range_eq_range']
    exact h

/-- Witness for C8: three attempts against an oracle that always fails, and
an oracle that succeeds on the second attempt. -/
theorem get_with_retry_spec_witness :
    (1 : Nat) ≤ 3 ∧
    ((get_with_retry (fun _ => none) 3).2.1 ≤ 3 ∧
    ((∀ i, i < 3 → (fun _ => (none : Option Nat)) i = none) →
      get_with_retry (fun _ => none) 3 = (none, 3, (List.range 2).map (fun x => 2 ^ x))) ∧
    (∀ j p, j < 3 → (fun _ => (none : Option Nat)) j = some p →
      (∀ i, i < j → (fun _ => (none : Option Nat)) i = none) →
      get_with_retry (fun _ => none) 3 = (some p, j + 1, (List.range j).map (fun x => 2 ^ x)))) :=
  ⟨by omega, get_with_retry_spec (fun _ => none) 3 (by omega)⟩

/-! ## Job ledger, delivery queue and producer
(`models.py`, `job_queue.py`, `crime_fetcher.py`) -/

/-- `JobStatus` from `models.py`. -/
inductive JobStatus where
  | pending
  | in_progress
  | completed
  | failed
  | skipped
deriving DecidableEq, Repr

/-- A `job_ledger` row (`JobLedger` in `models.py`): the identity columns
protected by the unique constraint plus the lifecycle columns the pipeline
writes. -/
structure JobLedger where
  ori : String
  offense : String
  year : Nat
  status : JobStatus := .pending
  attempts : Nat := 0
  last_error : Option String := none
  started_at : Option Nat := none
  completed_at : Option Nat := none
  worker_id : Option String := none
deriving DecidableEq, Repr

/-- The `Job` dataclass from `job_queue.py` (`created_at` as a numeric
timestamp). -/
structure Job where
  job_id : String
  ori : String
  offense : String
  year : Nat
  created_at : Nat
  attempts : Nat := 0
deriving DecidableEq, Repr

/-- The producer-visible state: the durable `job_ledger` table and the
`pending_jobs` Redis stream (append-only). -/
structure ProducerState where
  ledger : List JobLedger
  queue : List Job
deriving DecidableEq, Repr

/-- Does the ledger already hold a row for this (ori, offense, year)
identity?  (The `uq_job_ledger_ori_offense_year` unique constraint.) -/
def ledgerHas (l : List JobLedger) (ori offense : String) (year : Nat) : Bool :=
  l.any (fun r => r.ori == ori && r.offense == offense && r.year == year)

/-- Number of ledger rows carrying a given work-item identity. -/
def rowCount (l : List JobLedger) (ori offense : String) (year : Nat) : Nat :=
  (l.filter (fun r => r.ori == ori && r.offense == offense && r.year == year)).length

/-- Number of queue messages carrying a given work-item identity. -/
def queueCount (q : List Job) (ori offense : String) (year : Nat) : Nat :=
  (q.filter (fun j => j.ori == ori && j.offense == offense && j.year == year)).length

/-- The body of the producer's triple loop for one (agency, offense, year):
`INSERT … ON CONFLICT DO NOTHING` into the ledger, and only on an actual
insert (`rowcount > 0`) build the `Job` and publish it to the queue. -/
def processTriple (now : Nat) (stn : ProducerState × Nat) (t : String × String × Nat) :
    ProducerState × Nat :=
  let st := stn.1
  if ledgerHas st.ledger t.1 t.2.1 t.2.2 then stn
  else
    let row : JobLedger := { ori := t.1, offense := t.2.1, year := t.2.2, status := .pending }
    let job : Job := { job_id := t.1 ++ "_" ++ t.2.1 ++ "_" ++ toString t.2.2, ori := t.1, offense := t.2.1, year := t.2.2, created_at := now }
    (⟨st.ledger ++ [row], st.queue ++ [job]⟩, stn.2 + 1)

/-- `create_jobs_for_agencies`: iterate agencies × offenses × years in order,
inserting idempotently and enqueuing only newly created identities; returns
the new state together with `jobs_created`. -/
def create_jobs_for_agencies (st : ProducerState) (agencies offenses : List String)
    (years : List Nat) (now : Nat) : ProducerState × Nat :=
  (agencies.flatMap (fun a => offenses.flatMap (fun o => years.map (fun y => (a, o, y))))).foldl
    (processTriple now) (st, 0)

theorem ledgerHas_false_iff (l : List JobLedger) (ori off : String) (yr : Nat) :
    ledgerHas l ori off yr = false ↔ rowCount l ori off yr = 0 := by
  simp [ledgerHas, rowCount, List.length_eq_zero, List.filter_eq_nil, List.any_eq_false]

theorem identB_false (a ori o off : String) (y yr : Nat) (h : ¬(a = ori ∧ o = off ∧ y = yr)) :
    (a == ori && o == off && y == yr) = false := by
  cases hb : (a == ori && o == off && y == yr)
  · rfl
  · exfalso
    apply h
    simpa [Bool.and_eq_true, beq_iff_eq, and_assoc] using hb

theorem rowCount_append (l : List JobLedger) (row : JobLedger) (ori off : String) (yr : Nat) :
    rowCount (l ++ [row]) ori off yr
      = rowCount l ori off yr
          + (if (row.ori == ori && row.offense == off && row.year == yr) = true then 1 else 0) := by
  simp only [rowCount, List.filter_append, List.length_append]
  congr 1
  split_ifs with h <;> simp [List.filter, h]

theorem queueCount_append (q : List Job) (job : Job) (ori off : String) (yr : Nat) :
    queueCount (q ++ [job]) ori off yr
      = queueCount q ori off yr
          + (if (job.ori == ori && job.offense == off && job.year == yr) = true then 1 else 0) := by
  simp only [queueCount, List.filter_append, List.length_append]
  congr 1
  split_ifs with h <;> simp [List.filter, h]

theorem foldl_preserves_existing (now : Nat) (ori off : String) (yr : Nat) :
    ∀ (ts : List (String × String × Nat)) (stn : ProducerState × Nat),
      1 ≤ rowCount stn.1.ledger ori off yr →
      rowCount (ts.foldl (processTriple now) stn).1.ledger ori off yr
          = rowCount stn.1.ledger ori off yr ∧
      queueCount (ts.foldl (processTriple now) stn).1.queue ori off yr
          = queueCount stn.1.queue ori off yr := by
  intro ts
  induction ts with
  | nil => intro stn _; exact ⟨rfl, rfl⟩
  | cons t ts ih =>
    intro stn h
    obtain ⟨a, o, y⟩ := t
    rw [List.foldl_cons]
    by_cases hhas : ledgerHas stn.1.ledger a o y
    · have hstep : processTriple now stn (a, o, y) = stn := by
        simp [processTriple, hhas]
      rw [hstep]
      exact ih stn h
    · have hne : ¬(a = ori ∧ o = off ∧ y = yr) := by
        rintro ⟨rfl, rfl, rfl⟩
        rw [Bool.not_eq_true, ledgerHas_false_iff] at hhas
        omega
      have hstep : processTriple now stn (a, o, y)
          = (⟨stn.1.ledger ++ [⟨a, o, y, .pending, 0, none, none, none, none⟩],
              stn.1.queue ++ [⟨a ++ "_" ++ o ++ "_" ++ toString y, a, o, y, now, 0⟩]⟩, stn.2 + 1) := by
        simp [processTriple, hhas]
      rw [hstep]
      have hrc : rowCount (stn.1.ledger ++ [⟨a, o, y, .pending, 0, none, none, none, none⟩]) ori off yr
          = rowCount stn.1.ledger ori off yr := by
        rw [rowCount_append]
        rw [if_neg]
        · omega
        · rw [identB_false a ori o off y yr hne]
          simp
      have hqc : queueCount (stn.1.queue ++ [⟨a ++ "_" ++ o ++ "_" ++ toString y, a, o, y, now, 0⟩]) ori off yr
          = queueCount stn.1.queue ori off yr := by
        rw [queueCount_append]
        rw [if_neg]
        · omega
        · rw [identB_false a ori o off y yr hne]
          simp
      have := ih (⟨stn.1.ledger ++ [⟨a, o, y, .pending, 0, none, none, none, none⟩],
              stn.1.queue ++ [⟨a ++ "_" ++ o ++ "_" ++ toString y, a, o, y, now, 0⟩]⟩, stn.2 + 1)
        (by rw [hrc]; exact h)
      rw [hrc, hqc] at this
      exact this

theorem foldl_creates_once (now : Nat) (ori off : String) (yr : Nat) :
    ∀ (ts : List (String × String × Nat)) (stn : ProducerState × Nat),
      rowCount stn.1.ledger ori off yr = 0 →
      queueCount stn.1.queue ori off yr = 0 →
      ((ori, off, yr) : String × String × Nat) ∈ ts →
      rowCount (ts.foldl (processTriple now) stn).1.ledger ori off yr = 1 ∧
      queueCount (ts.foldl (processTriple now) stn).1.queue ori off yr = 1 := by
  intro ts
  induction ts with
  | nil => intro stn _ _ hmem; cases hmem
  | cons t ts ih =>
    intro stn h0 hq0 hmem
    obtain ⟨a, o, y⟩ := t
    rw [List.foldl_cons]
    by_cases hid : ((a, o, y) : String × String × Nat) = (ori, off, yr)
    · obtain ⟨rfl, rfl, rfl⟩ : a = ori ∧ o = off ∧ y = yr := by
        simpa [Prod.ext_iff, and_assoc] using hid
      have hhas : ledgerHas stn.1.ledger a o y = false := (ledgerHas_false_iff _ _ _ _).mpr h0
      have hstep : processTriple now stn (a, o, y)
          = (⟨stn.1.ledger ++ [⟨a, o, y, .pending, 0, none, none, none, none⟩],
              stn.1.queue ++ [⟨a ++ "_" ++ o ++ "_" ++ toString y, a, o, y, now, 0⟩]⟩, stn.2 + 1) := by
        simp [processTriple, hhas]
      rw [hstep]
      have hrc : rowCount (stn.1.ledger ++ [⟨a, o, y, .pending, 0, none, none, none, none⟩]) a o y
          = 1 := by
        rw [rowCount_append, if_pos (by simp)]
        omega
      have hqc : queueCount (stn.1.queue ++ [⟨a ++ "_" ++ o ++ "_" ++ toString y, a, o, y, now, 0⟩]) a o y
          = 1 := by
        rw [queueCount_append, if_pos (by simp)]
        omega
      have hpres := foldl_preserves_existing now a o y ts
        (⟨stn.1.ledger ++ [⟨a, o, y, .pending, 0, none, none, none, none⟩],
            stn.1.queue ++ [⟨a ++ "_" ++ o ++ "_" ++ toString y, a, o, y, now, 0⟩]⟩, stn.2 + 1)
        (by rw [hrc])
      rw [hrc, hqc] at hpres
      exact hpres
    · have hne : ¬(a = ori ∧ o = off ∧ y = yr) := by
        intro hc
        exact hid (by simp [Prod.ext_iff, and_assoc, hc.1, hc.2.1, hc.2.2])
      have hmem' : ((ori, off, yr) : String × String × Nat) ∈ ts := by
        rcases List.mem_cons.mp hmem with heq | h
        · exact absurd heq.symm hid
        · exact h
      by_cases hhas : ledgerHas stn.1.ledger a o y
      · have hstep : processTriple now stn (a, o, y) = stn := by
          simp [processTriple, hhas]
        rw [hstep]
        exact ih stn h0 hq0 hmem'
      · have hstep : processTriple now stn (a, o, y)
            = (⟨stn.1.ledger ++ [⟨a, o, y, .pending, 0, none, none, none, none⟩],
                stn.1.queue ++ [⟨a ++ "_" ++ o ++ "_" ++ toString y, a, o, y, now, 0⟩]⟩, stn.2 + 1) := by
          simp [processTriple, hhas]
        rw [hstep]
        have hrc : rowCount (stn.1.ledger ++ [⟨a, o, y, .pending, 0, none, none, none, none⟩]) ori off yr
            = 0 := by
          rw [rowCount_append, if_neg (by rw [identB_false a ori o off y yr hne]; simp)]
          omega
        have hqc : queueCount (stn.1.queue ++ [⟨a ++ "_" ++ o ++ "_" ++ toString y, a, o, y, now, 0⟩]) ori off yr
            = 0 := by
          rw [queueCount_append, if_neg (by rw [identB_false a ori o off y yr hne]; simp)]
          omega
        exact ih _ hrc hqc hmem'

/-- C1: the producer's enqueue is idempotent per work-item identity.  If a
ledger row for (ori, offense, year) already exists — in any status — a run of
`create_jobs_for_agencies` inserts no further row and publishes nothing to
the queue for that identity; and starting from a state with no row and no
queue message for the identity, any number of runs whose inputs cover the
identity leaves exactly one ledger row and exactly one queue publish for
it. -/
theorem create_jobs_for_agencies_idempotent
    (st : ProducerState) (agencies offenses : List String) (years : List Nat)
    (now : Nat) (ori off : String) (yr : Nat) :
    (1 ≤ rowCount st.ledger ori off yr →
      rowCount (create_jobs_for_agencies st agencies offenses years now).1.ledger ori off yr
          = rowCount st.ledger ori off yr ∧
      queueCount (create_jobs_for_agencies st agencies offenses years now).1.queue ori off yr
          = queueCount st.queue ori off yr) ∧
    (rowCount st.ledger ori off yr = 0 → queueCount st.queue ori off yr = 0 →
      ori ∈ agencies → off ∈ offenses → yr ∈ years → ∀ n : Nat,
      rowCount ((fun s => (create_jobs_for_agencies s agencies offenses years now).1)^[n + 1] st).ledger ori off yr = 1 ∧
      queueCount ((fun s => (create_jobs_for_agencies s agencies offenses years now).1)^[n + 1] st).queue ori off yr = 1) := by
  constructor
  · intro h
    exact foldl_preserves_existing now ori off yr _ (st, 0) h
  · intro h0 hq0 ha ho hy n
    have hmem : ((ori, off, yr) : String × String × Nat)
        ∈ agencies.flatMap (fun a => offenses.flatMap (fun o => years.map (fun y => (a, o, y)))) := by
      simp only [List.mem_flatMap, List.mem_map]
      exact ⟨ori, ha, off, ho, yr, hy, rfl⟩
    induction n with
    | zero =>
      rw [Function.iterate_one]
      exact foldl_creates_once now ori off yr _ (st, 0) h0 hq0 hmem
    | succ m ihm =>
      rw [Function.iterate_succ_apply']
      obtain ⟨hr1, hq1⟩ := ihm
      have hstep := foldl_preserves_existing now ori off yr
        (agencies.flatMap (fun a => offenses.flatMap (fun o => years.map (fun y => (a, o, y)))))
        ((fun s => (create_jobs_for_agencies s agencies offenses years now).1)^[m + 1] st, 0)
        (le_of_eq hr1.symm)
      constructor
      · exact (hstep.1).trans hr1
      · exact (hstep.2).trans hq1

/-- Witness for C1: a fresh state with agency "A1", offense "OFF", year 2024
(run once and twice), and a state whose ledger already holds a COMPLETED row
for the identity. -/
theorem create_jobs_for_agencies_idempotent_witness :
    (rowCount ([] : List JobLedger) "A1" "OFF" 2024 = 0 ∧
      queueCount ([] : List Job) "A1" "OFF" 2024 = 0 ∧
      "A1" ∈ ["A1"] ∧ "OFF" ∈ ["OFF"] ∧ (2024 : Nat) ∈ [2024] ∧
      1 ≤ rowCount [⟨"A1", "OFF", 2024, .completed, 1, none, none, none, none⟩] "A1" "OFF" 2024) ∧
    (rowCount ((fun s => (create_jobs_for_agencies s ["A1"] ["OFF"] [2024] 5).1)^[0 + 1] ⟨[], []⟩).ledger "A1" "OFF" 2024 = 1 ∧
      queueCount ((fun s => (create_jobs_for_agencies s ["A1"] ["OFF"] [2024] 5).1)^[0 + 1] ⟨[], []⟩).queue "A1" "OFF" 2024 = 1) ∧
    (rowCount ((fun s => (create_jobs_for_agencies s ["A1"] ["OFF"] [2024] 5).1)^[1 + 1] ⟨[], []⟩).ledger "A1" "OFF" 2024 = 1 ∧
      queueCount ((fun s => (create_jobs_for_agencies s ["A1"] ["OFF"] [2024] 5).1)^[1 + 1] ⟨[], []⟩).queue "A1" "OFF" 2024 = 1) ∧
    (rowCount (create_jobs_for_agencies ⟨[⟨"A1", "OFF", 2024, .completed, 1, none, none, none, none⟩], []⟩ ["A1"] ["OFF"] [2024] 5).1.ledger "A1" "OFF" 2024
        = rowCount [⟨"A1", "OFF", 2024, .completed, 1, none, none, none, none⟩] "A1" "OFF" 2024 ∧
      queueCount (create_jobs_for_agencies ⟨[⟨"A1", "OFF", 2024, .completed, 1, none, none, none, none⟩], []⟩ ["A1"] ["OFF"] [2024] 5).1.queue "A1" "OFF" 2024
        = queueCount ([] : List Job) "A1" "OFF" 2024) :=
  ⟨⟨rfl, rfl, by decide, by decide, by decide, by decide⟩,
    (create_jobs_for_agencies_idempotent ⟨[], []⟩ ["A1"] ["OFF"] [2024] 5 "A1" "OFF" 2024).2
      rfl rfl (by decide) (by decide) (by decide) 0,
    (create_jobs_for_agencies_idempotent ⟨[], []⟩ ["A1"] ["OFF"] [2024] 5 "A1" "OFF" 2024).2
      rfl rfl (by decide) (by decide) (by decide) 1,
    (create_jobs_for_agencies_idempotent
        ⟨[⟨"A1", "OFF", 2024, .completed, 1, none, none, none, none⟩], []⟩
        ["A1"] ["OFF"] [2024] 5 "A1" "OFF" 2024).1 (by decide)⟩

/-! ## Worker (`CrimeFetcher.process_job` in `crime_fetcher.py`) -/

/-- A `raw_responses` row as written by `process_job` (identity columns and
the parsed fields; the JSON blob and timestamps are not modelled). -/
structure RawResponse where
  ori : String
  offense : String
  year : Nat
  actual_count : Option Int := none
  months_reported : Option Int := none
  population : Option Int := none
  parsed_ok : Bool := true
deriving DecidableEq, Repr

/-- The worker-visible state: the ledger table, the results table, the
`failed_jobs` stream (dead letters with their error text) and the set of
acknowledged message ids. -/
structure WorkerState where
  ledger : List JobLedger
  raw_responses : List RawResponse
  failed_stream : List (Job × String)
  acked : List String
deriving DecidableEq, Repr

/-- `UPDATE job_ledger SET … WHERE ori = … AND offense = … AND year = …`. -/
def updateLedgerWhere (l : List JobLedger) (ori offense : String) (year : Nat)
    (f : JobLedger → JobLedger) : List JobLedger :=
  l.map (fun r => if r.ori == ori && r.offense == offense && r.year == year then f r else r)

/-- `INSERT … ON CONFLICT (ori, offense, year) DO UPDATE` into
`raw_responses`: last write wins for the parsed fields. -/
def upsertRawResponse (l : List RawResponse) (row : RawResponse) : List RawResponse :=
  if l.any (fun r => r.ori == row.ori && r.offense == row.offense && r.year == row.year) then
    l.map (fun r =>
      if r.ori == row.ori && r.offense == row.offense && r.year == row.year then
        { r with actual_count := row.actual_count, months_reported := row.months_reported }
      else r)
  else
    l ++ [row]

/-- Outcome of `fetch_crime_data` for one job as `process_job` observes it:
a successful `FetchResult`, a failed one (`success = False` with its error
text), or an exception escaping the fetch/persist sequence into
`process_job`'s `except` handler. -/
inductive FetchOutcome where
  | success (actual_count months_reported population : Option Int)
  | failure (error : String)
  | exn (error : String)
deriving DecidableEq, Repr

/-- `CrimeFetcher.process_job`: mark the ledger row IN_PROGRESS (recording
worker id, start time, incremented attempts); then, on success, upsert the
raw response and mark COMPLETED; on a failed fetch, mark FAILED with the
error text and dead-letter the job; on an exception, dead-letter the job
with the exception text.  The queue message is acknowledged on every path,
and the returned flag is `result.success`. -/
def process_job (ws : WorkerState) (worker_id message_id : String) (job : Job)
    (now : Nat) (outcome : FetchOutcome) : WorkerState × Bool :=
  let ws1 : WorkerState := { ws with ledger := updateLedgerWhere ws.ledger job.ori job.offense job.year (fun r => { r with status := .in_progress, started_at := some now, worker_id := some worker_id, attempts := job.attempts + 1 }) }
  match outcome with
  | .success cnt mr pop =>
    let ws2 : WorkerState := { ws1 with raw_responses := upsertRawResponse ws1.raw_responses ⟨job.ori, job.offense, job.year, cnt, mr, pop, true⟩ }
    let ws3 : WorkerState := { ws2 with ledger := updateLedgerWhere ws2.ledger job.ori job.offense job.year (fun r => { r with status := .completed, completed_at := some now }) }
    ({ ws3 with acked := ws3.acked ++ [message_id] }, true)
  | .failure err =>
    let ws2 : WorkerState := { ws1 with ledger := updateLedgerWhere ws1.ledger job.ori job.offense job.year (fun r => { r with status := .failed, last_error := some err }) }
    let ws3 : WorkerState := { ws2 with failed_stream := ws2.failed_stream ++ [(job, err)] }
    ({ ws3 with acked := ws3.acked ++ [message_id] }, false)
  | .exn err =>
    let ws2 : WorkerState := { ws1 with failed_stream := ws1.failed_stream ++ [(job, err)] }
    ({ ws2 with acked := ws2.acked ++ [message_id] }, false)

theorem updateLedgerWhere_matching_rows (l : List JobLedger) (ori off : String) (yr : Nat)
    (f : JobLedger → JobLedger) (P : JobLedger → Prop) (hf : ∀ r, P (f r)) :
    ∀ r ∈ updateLedgerWhere l ori off yr f,
      (r.ori == ori && r.offense == off && r.year == yr) = true → P r := by
  intro r hr hmatch
  simp only [updateLedgerWhere, List.mem_map] at hr
  obtain ⟨r0, hr0, hstep⟩ := hr
  by_cases hm : (r0.ori == ori && r0.offense == off && r0.year == yr) = true
  · rw [if_pos hm] at hstep
    rw [← hstep]
    exact hf r0
  · rw [if_neg hm] at hstep
    rw [← hstep] at hmatch
    exact absurd hmatch hm

/-- C2 (amended): `process_job` acknowledges the queue message on every path
(success, failed fetch, exception).  A failed fetch dead-letters the job with
its error text, returns `False` and advances every ledger row of the job's
identity to FAILED with the error recorded as `last_error`.  An exception
also dead-letters the job with the exception text, returns `False` and acks —
but it does **not** advance the ledger to FAILED: the row stays at the
IN_PROGRESS value written at the start of processing (the `except` handler
never updates the ledger). -/
theorem process_job_ack_and_error_paths (ws : WorkerState) (worker_id message_id : String)
    (job : Job) (now : Nat) :
    (∀ outcome : FetchOutcome,
      message_id ∈ (process_job ws worker_id message_id job now outcome).1.acked) ∧
    (∀ err : String,
      (job, err) ∈ (process_job ws worker_id message_id job now (.failure err)).1.failed_stream ∧
      (process_job ws worker_id message_id job now (.failure err)).2 = false ∧
      ∀ r ∈ (process_job ws worker_id message_id job now (.failure err)).1.ledger,
        (r.ori == job.ori && r.offense == job.offense && r.year == job.year) = true →
        r.status = .failed ∧ r.last_error = some err) ∧
    (∀ err : String,
      (job, err) ∈ (process_job ws worker_id message_id job now (.exn err)).1.failed_stream ∧
      (process_job ws worker_id message_id job now (.exn err)).2 = false ∧
      ∀ r ∈ (process_job ws worker_id message_id job now (.exn err)).1.ledger,
        (r.ori == job.ori && r.offense == job.offense && r.year == job.year) = true →
        r.status = .in_progress) := by
  refine ⟨?_, ?_, ?_⟩
  · intro outcome
    cases outcome <;> simp [process_job]
  · intro err
    refine ⟨by simp [process_job], rfl, ?_⟩
    intro r hr hm
    have hled : (process_job ws worker_id message_id job now (.failure err)).1.ledger
        = updateLedgerWhere (updateLedgerWhere ws.ledger job.ori job.offense job.year (fun r => { r with status := .in_progress, started_at := some now, worker_id := some worker_id, attempts := job.attempts + 1 })) job.ori job.offense job.year (fun r => { r with status := .failed, last_error := some err }) := rfl
    rw [hled] at hr
    exact updateLedgerWhere_matching_rows _ job.ori job.offense job.year _
      (fun r => r.status = .failed ∧ r.last_error = some err) (fun r0 => ⟨rfl, rfl⟩) r hr hm
  · intro err
    refine ⟨by simp [process_job], rfl, ?_⟩
    intro r hr hm
    have hled : (process_job ws worker_id message_id job now (.exn err)).1.ledger
        = updateLedgerWhere ws.ledger job.ori job.offense job.year (fun r => { r with status := .in_progress, started_at := some now, worker_id := some worker_id, attempts := job.attempts + 1 }) := rfl
    rw [hled] at hr
    exact updateLedgerWhere_matching_rows _ job.ori job.offense job.year _
      (fun r => r.status = .in_progress) (fun r0 => rfl) r hr hm

/-- Counterexample for C2 as stated: on an exception ("boom") the job is
dead-lettered and the message acknowledged, but the ledger row for the
identity remains IN_PROGRESS with `last_error = none` — it is not advanced
to FAILED with the exception text. -/
theorem process_job_exception_counterexample :
    process_job ⟨[⟨"A1", "OFF", 2024, .pending, 0, none, none, none, none⟩], [], [], []⟩
        "w1" "m1" ⟨"A1_OFF_2024", "A1", "OFF", 2024, 0, 0⟩ 7 (.exn "boom")
      = (⟨[⟨"A1", "OFF", 2024, .in_progress, 1, none, some 7, none, some "w1"⟩], [],
          [(⟨"A1_OFF_2024", "A1", "OFF", 2024, 0, 0⟩, "boom")], ["m1"]⟩, false) ∧
    (⟨"A1", "OFF", 2024, .in_progress, 1, none, some 7, none, some "w1"⟩ : JobLedger).status
      ≠ .failed ∧
    (⟨"A1", "OFF", 2024, .in_progress, 1, none, some 7, none, some "w1"⟩ : JobLedger).last_error
      ≠ some "boom" := by
  decide

/-- Witness for the amended C2 at a concrete worker state and job. -/
theorem process_job_ack_and_error_paths_witness :
    (∀ outcome : FetchOutcome,
      "m1" ∈ (process_job ⟨[⟨"A1", "OFF", 2024, .pending, 0, none, none, none, none⟩], [], [], []⟩ "w1" "m1" ⟨"A1_OFF_2024", "A1", "OFF", 2024, 0, 0⟩ 7 outcome).1.acked) ∧
    (∀ err : String,
      ((⟨"A1_OFF_2024", "A1", "OFF", 2024, 0, 0⟩ : Job), err) ∈ (process_job ⟨[⟨"A1", "OFF", 2024, .pending, 0, none, none, none, none⟩], [], [], []⟩ "w1" "m1" ⟨"A1_OFF_2024", "A1", "OFF", 2024, 0, 0⟩ 7 (.failure err)).1.failed_stream ∧
      (process_job ⟨[⟨"A1", "OFF", 2024, .pending, 0, none, none, none, none⟩], [], [], []⟩ "w1" "m1" ⟨"A1_OFF_2024", "A1", "OFF", 2024, 0, 0⟩ 7 (.failure err)).2 = false ∧
      ∀ r ∈ (process_job ⟨[⟨"A1", "OFF", 2024, .pending, 0, none, none, none, none⟩], [], [], []⟩ "w1" "m1" ⟨"A1_OFF_2024", "A1", "OFF", 2024, 0, 0⟩ 7 (.failure err)).1.ledger,
        (r.ori == (⟨"A1_OFF_2024", "A1", "OFF", 2024, 0, 0⟩ : Job).ori && r.offense == (⟨"A1_OFF_2024", "A1", "OFF", 2024, 0, 0⟩ : Job).offense && r.year == (⟨"A1_OFF_2024", "A1", "OFF", 2024, 0, 0⟩ : Job).year) = true →
        r.status = .failed ∧ r.last_error = some err) ∧
    (∀ err : String,
      ((⟨"A1_OFF_2024", "A1", "OFF", 2024, 0, 0⟩ : Job), err) ∈ (process_job ⟨[⟨"A1", "OFF", 2024, .pending, 0, none, none, none, none⟩], [], [], []⟩ "w1" "m1" ⟨"A1_OFF_2024", "A1", "OFF", 2024, 0, 0⟩ 7 (.exn err)).1.failed_stream ∧
      (process_job ⟨[⟨"A1", "OFF", 2024, .pending, 0, none, none, none, none⟩], [], [], []⟩ "w1" "m1" ⟨"A1_OFF_2024", "A1", "OFF", 2024, 0, 0⟩ 7 (.exn err)).2 = false ∧
      ∀ r ∈ (process_job ⟨[⟨"A1", "OFF", 2024, .pending, 0, none, none, none, none⟩], [], [], []⟩ "w1" "m1" ⟨"A1_OFF_2024", "A1", "OFF", 2024, 0, 0⟩ 7 (.exn err)).1.ledger,
        (r.ori == (⟨"A1_OFF_2024", "A1", "OFF", 2024, 0, 0⟩ : Job).ori && r.offense == (⟨"A1_OFF_2024", "A1", "OFF", 2024, 0, 0⟩ : Job).offense && r.year == (⟨"A1_OFF_2024", "A1", "OFF", 2024, 0, 0⟩ : Job).year) = true →
        r.status = .in_progress) :=
  process_job_ack_and_error_paths
    ⟨[⟨"A1", "OFF", 2024, .pending, 0, none, none, none, none⟩], [], [], []⟩
    "w1" "m1" ⟨"A1_OFF_2024", "A1", "OFF", 2024, 0, 0⟩ 7

/-! ## Defensive payload parsing (`get_data_for_key` in `crime_fetcher.py`) -/

/-- A JSON leaf value inside a monthly-bucket map: `null`, a numeric value
(monthly crime counts are integral), or a non-numeric value on which
Python's `float(val)` raises and the parser skips the entry. -/
inductive JVal where
  | null
  | num (n : Int)
  | nonNumeric
deriving DecidableEq, Repr

/-- Python's `needle in hay` substring test, on character lists. -/
def containsSub (needle hay : List Char) : Bool :=
  needle.isPrefixOf hay ||
    match hay with
    | [] => false
    | _ :: rest => containsSub needle rest

/-- `key_suffix in k` for strings. -/
def strContains (hay needle : String) : Bool :=
  containsSub needle.toList hay.toList

/-- Python's `s.endswith(suffix)`, on character lists. -/
def strEndsWith (s suffix : String) : Bool :=
  suffix.toList.isSuffixOf s.toList

/-- The body of the parser's monthly loop: add the value when the month key
ends with the year suffix and the value is a non-null number (setting
`has_data`), skip `null` and non-numeric values. -/
def monthStep (suffix : String) (acc : Int × Bool) (mkv : String × JVal) : Int × Bool :=
  if strEndsWith mkv.1 suffix then
    match mkv.2 with
    | .num n => (acc.1 + n, true)
    | _ => acc
  else acc

/-- `get_data_for_key(d, key_suffix, year)`: empty dict → `(0, False)`;
otherwise find the first key containing the marker substring (`None` →
`(0, False)`) and fold the monthly loop over its bucket map, returning
`(int(year_total), has_data)`. -/
def get_data_for_key (d : List (String × List (String × JVal))) (key_suffix : String)
    (year : Nat) : Int × Bool :=
  match d with
  | [] => (0, false)
  | _ :: _ =>
    match d.find? (fun kv => strContains kv.1 key_suffix) with
    | none => (0, false)
    | some kv => kv.2.foldl (monthStep ("-" ++ toString year)) (0, false)

/-- The specification's description of a year total, written from the spec's
words: the sum of all non-null numeric monthly values whose month key ends
with "-<year>" (absent months simply do not contribute). -/
def specYearTotal (months : List (String × JVal)) (year : Nat) : Int :=
  (months.map (fun mkv =>
    if strEndsWith mkv.1 ("-" ++ toString year) then
      match mkv.2 with
      | .num n => n
      | _ => 0
    else 0)).sum

theorem monthFold_total (year : Nat) :
    ∀ (months : List (String × JVal)) (acc : Int × Bool),
      (months.foldl (monthStep ("-" ++ toString year)) acc).1
        = acc.1 + specYearTotal months year := by
  intro months
  induction months with
  | nil => intro acc; simp [specYearTotal]
  | cons m ms ih =>
    intro acc
    rw [List.foldl_cons, ih]
    have hstep : (monthStep ("-" ++ toString year) acc m).1
        = acc.1 + (if strEndsWith m.1 ("-" ++ toString year) then
            (match m.2 with | .num n => n | _ => 0) else 0) := by
      unfold monthStep
      split_ifs with h
      · cases hv : m.2 <;> simp
      · simp
    rw [hstep]
    show acc.1 + _ + specYearTotal ms year = acc.1 + specYearTotal (m :: ms) year
    unfold specYearTotal
    rw [List.map_cons, List.sum_cons]
    omega

/-- C9: for every parsed counts dictionary and target year, when no key
contains the marker substring the parser returns total 0 with `has_data`
false; and when the first key containing the marker holds the bucket map
`months`, the parser's year total equals the sum of all non-null numeric
monthly values of `months` whose month key ends with "-<year>" (months
absent from the payload contribute nothing). -/
theorem get_data_for_key_spec (d : List (String × List (String × JVal)))
    (key_suffix : String) (year : Nat) :
    ((∀ kv ∈ d, strContains kv.1 key_suffix = false) →
      get_data_for_key d key_suffix year = (0, false)) ∧
    (∀ k months, d.find? (fun kv => strContains kv.1 key_suffix) = some (k, months) →
      (get_data_for_key d key_suffix year).1 = specYearTotal months year) := by
  constructor
  · intro hall
    cases d with
    | nil => rfl
    | cons hd tl =>
      have hnone : (hd :: tl).find? (fun kv => strContains kv.1 key_suffix) = none :=
        List.find?_eq_none.mpr (fun x hx => by simp [hall x hx])
      simp [get_data_for_key, hnone]
  · intro k months hfind
    cases d with
    | nil => simp at hfind
    | cons hd tl =>
      unfold get_data_for_key
      rw [hfind]
      exact (monthFold_total year months (0, false)).trans (by omega)

/-- Witness for C9 on a concrete payload: marker "Offenses", year 2024, with
a null month, a non-numeric month and an out-of-year month to be skipped. -/
theorem get_data_for_key_spec_witness :
    ([("Percent of Population Coverage", ([] : List (String × JVal))),
        ("Alabama Offenses", [("01-2024", JVal.num 10), ("03-2024", JVal.null), ("05-2024", JVal.num 32), ("06-2023", JVal.num 99), ("07-2024", JVal.nonNumeric)])].find?
        (fun kv => strContains kv.1 "Offenses")
      = some ("Alabama Offenses", [("01-2024", JVal.num 10), ("03-2024", JVal.null), ("05-2024", JVal.num 32), ("06-2023", JVal.num 99), ("07-2024", JVal.nonNumeric)])) ∧
    (get_data_for_key [("Percent of Population Coverage", ([] : List (String × JVal))),
        ("Alabama Offenses", [("01-2024", JVal.num 10), ("03-2024", JVal.null), ("05-2024", JVal.num 32), ("06-2023", JVal.num 99), ("07-2024", JVal.nonNumeric)])] "Offenses" 2024).1
      = specYearTotal [("01-2024", JVal.num 10), ("03-2024", JVal.null), ("05-2024", JVal.num 32), ("06-2023", JVal.num 99), ("07-2024", JVal.nonNumeric)] 2024 :=
  ⟨by decide,
    (get_data_for_key_spec [("Percent of Population Coverage", ([] : List (String × JVal))),
        ("Alabama Offenses", [("01-2024", JVal.num 10), ("03-2024", JVal.null), ("05-2024", JVal.num 32), ("06-2023", JVal.num 99), ("07-2024", JVal.nonNumeric)])] "Offenses" 2024).2
      "Alabama Offenses"
      [("01-2024", JVal.num 10), ("03-2024", JVal.null), ("05-2024", JVal.num 32), ("06-2023", JVal.num 99), ("07-2024", JVal.nonNumeric)]
      (by decide)⟩
